import Mathlib

/-!
# Study-One (Socrato) — verification of the generation pipeline spec

Shallow embedding of the Study-One repository's generation pipeline:
the frontend API clients and page logic (from `frontend/src/lib/api.ts`,
`frontend/src/app/page.tsx`, `frontend/src/types/api.ts`) and the backend
generation endpoint (modelled from the spec, since the Python backend
sources are not in the repository snapshot — only its READMEs, tests and
callers are).
-/

namespace StudyOne

/-! ## A small JSON value model (for request/response bodies) -/

/-- JSON values as exchanged between frontend and backend.  Numbers are
modelled as integers (the payloads of this system carry no fractions). -/
inductive Json where
  | null
  | bool (b : Bool)
  | num (n : Int)
  | str (s : String)
  | arr (elems : List Json)
  | obj (fields : List (String × Json))
deriving Repr

/-- Object field access: `j.k` on a JSON object, `none` when missing or
when `j` is not an object. -/
def Json.getField : Json → String → Option Json
  | .obj fields, k => fields.lookup k
  | _, _ => none

/-- JavaScript truthiness of a JSON value (`null`, `false`, `0` and `""`
are falsy; every object and array, including empty ones, is truthy). -/
def Json.truthy : Json → Bool
  | .null => false
  | .bool b => b
  | .num n => n != 0
  | .str s => !s.isEmpty
  | .arr _ => true
  | .obj _ => true

mutual

/-- JavaScript string coercion of a JSON value, as applied by
`new Error(x)` to a non-string `x`: strings are themselves, arrays
comma-join their coerced elements (`null` elements become empty), plain
objects render as `[object Object]`. -/
def Json.toMessage : Json → String
  | .null => "null"
  | .bool true => "true"
  | .bool false => "false"
  | .num n => toString n
  | .str s => s
  | .arr xs => Json.joinElems xs
  | .obj _ => "[object Object]"

/-- The comma-join of `Array.prototype.toString`: elements are coerced
with `String()`, except that `null` renders as the empty string. -/
def Json.joinElems : List Json → String
  | [] => ""
  | [j] =>
      match j with
      | .null => ""
      | j2 => Json.toMessage j2
  | j :: rest =>
      (match j with
       | .null => ""
       | j2 => Json.toMessage j2) ++ "," ++ Json.joinElems rest

end

/-- A JavaScript value: either `undefined` or a JSON value. -/
inductive JsVal where
  | undefined
  | val (j : Json)
deriving Repr

/-- JavaScript property access `base.k`.  Throws `TypeError` (modelled as
`Except.error ()`) when the base is `undefined` or `null`; yields
`undefined` for a missing property or a non-object base. -/
def jsGetProp : JsVal → String → Except Unit JsVal
  | .undefined, _ => .error ()
  | .val .null, _ => .error ()
  | .val (.obj fields), k =>
      .ok (match fields.lookup k with
           | some v => .val v
           | none => .undefined)
  | .val _, _ => .ok .undefined

/-- JavaScript index access `base[i]`.  Throws `TypeError` when the base
is `undefined` or `null`; indexes arrays and strings, yields `undefined`
out of range or on other bases. -/
def jsIndex : JsVal → Nat → Except Unit JsVal
  | .undefined, _ => .error ()
  | .val .null, _ => .error ()
  | .val (.arr xs), i =>
      .ok (match xs.get? i with
           | some v => .val v
           | none => .undefined)
  | .val (.str s), i =>
      .ok (match s.data.get? i with
           | some c => .val (.str (String.mk [c]))
           | none => .undefined)
  | .val _, _ => .ok .undefined

/-- Truthiness of a JavaScript value (`undefined` is falsy). -/
def JsVal.truthy : JsVal → Bool
  | .undefined => false
  | .val j => j.truthy

/-- String coercion of a JavaScript value. -/
def JsVal.toMessage : JsVal → String
  | .undefined => "undefined"
  | .val j => j.toMessage

/-! ## Frontend API clients (`frontend/src/lib/api.ts`) -/

/-- The `response.ok` test of the Fetch API: status in the range 200–299. -/
def responseOk (status : Nat) : Bool := 200 ≤ status && status < 300

/-- The outcome of one client call, after the response arrives:
resolve with the parsed body, throw an `Error` with a message, throw a
`TypeError` from a property access on `undefined`, or reject because the
success body failed to parse as JSON. -/
inductive ClientOutcome where
  | success (body : Json)
  | failure (message : String)
  | jsTypeError
  | bodyParseFailure
deriving Repr

/-- The HTTP request a client function issues, with the body kept as the
JSON value passed to `JSON.stringify`. -/
structure HttpRequest where
  path : String
  method : String
  contentType : String
  bodyJson : Json

/-- The fallback error message template of both client functions. -/
def fallbackMessage (status : Nat) : String :=
  "Request failed with status " ++ toString status

/-- Request built by `generateStudyMaterials` in `api.ts`:
`POST {API_BASE_URL}/api/v1/generate` with body `JSON.stringify({ text })`
and `Content-Type: application/json`. -/
def generateStudyMaterialsRequest (text : String) : HttpRequest :=
  { path := "/api/v1/generate"
    method := "POST"
    contentType := "application/json"
    bodyJson := .obj [("text", .str text)] }

/-- Request built by the legacy `generateStudyPack` in `api.ts`:
`POST {API_BASE_URL}/generate-study-pack`, same body and headers. -/
def generateStudyPackRequest (text : String) : HttpRequest :=
  { path := "/generate-study-pack"
    method := "POST"
    contentType := "application/json"
    bodyJson := .obj [("text", .str text)] }

/-- Response handling of `generateStudyMaterials` (`api.ts`).  `body` is
the JSON parse of the response body (`none` when unparseable, in which
case `.catch(() => ({}))` substitutes the empty object on the error
path).  On `!response.ok` it throws `new Error(error.detail || fallback)`,
evaluated with JavaScript property semantics: `error.detail` throws a
`TypeError` when the parsed body is `null`. -/
def generateStudyMaterials (status : Nat) (body : Option Json) : ClientOutcome :=
  if responseOk status then
    match body with
    | some j => .success j
    | none => .bodyParseFailure
  else
    let error : JsVal := .val (body.getD (.obj []))
    match jsGetProp error "detail" with
    | .error _ => .jsTypeError
    | .ok d =>
        .failure (if d.truthy then d.toMessage else fallbackMessage status)

/-- Response handling of the legacy `generateStudyPack` (`api.ts`).  On
`!response.ok` it throws `new Error(error.detail[0].msg || fallback)`,
evaluated with JavaScript property/index semantics: a `TypeError` fires
when a property or index is taken on `undefined`. -/
def generateStudyPack (status : Nat) (body : Option Json) : ClientOutcome :=
  if responseOk status then
    match body with
    | some j => .success j
    | none => .bodyParseFailure
  else
    let error : JsVal := .val (body.getD (.obj []))
    match jsGetProp error "detail" with
    | .error _ => .jsTypeError
    | .ok d =>
      match jsIndex d 0 with
      | .error _ => .jsTypeError
      | .ok e0 =>
        match jsGetProp e0 "msg" with
        | .error _ => .jsTypeError
        | .ok m =>
            .failure (if m.truthy then m.toMessage else fallbackMessage status)

/-! ## Home page logic (`frontend/src/app/page.tsx`) -/

/-- The whitespace characters stripped by `String.prototype.trim` that
occur in practice (space, tab, newline, carriage return). -/
def isWsChar (c : Char) : Bool :=
  c = ' ' || c = '\t' || c = '\n' || c = '\r'

/-- JavaScript `s.trim()`: strip leading and trailing whitespace. -/
def jsTrim (s : String) : String :=
  ⟨((s.data.dropWhile isWsChar).reverse.dropWhile isWsChar).reverse⟩

/-- True exactly when a character list neither starts nor ends with
whitespace (an empty list qualifies). -/
def edgeWsFree (cs : List Char) : Bool :=
  (match cs.head? with
   | some c => !isWsChar c
   | none => true) &&
  (match cs.getLast? with
   | some c => !isWsChar c
   | none => true)

/-- The `Home.handleSubmit` of `page.tsx`: with `isEmpty = !notes.trim()` and
`isDisabled = isEmpty || loading`, a disabled submit returns without a
request; otherwise `generateStudyPack(notes.trim())` is invoked.  The
result is the text sent, `none` when no request is made. -/
def handleSubmit (notes : String) (loading : Bool) : Option String :=
  if (jsTrim notes).isEmpty || loading then none
  else some (jsTrim notes)

/-- The fixed user-facing fallback string of `page.tsx`. -/
def userFriendlyFallback : String := "Something went wrong. Please try again."

/-- Lowercased character list of a string (models the `/i` regex flag). -/
def lowerChars (s : String) : List Char := s.data.map Char.toLower

/-- True exactly when `cs` starts with `pat` immediately followed by a digit
(models a regex literal followed by `\d+` anchored at the position). -/
def matchPatDigit (pat : List Char) (cs : List Char) : Bool :=
  match pat, cs with
  | [], c :: _ => c.isDigit
  | [], [] => false
  | p :: ps, c :: rest => p == c && matchPatDigit ps rest
  | _ :: _, [] => false

/-- Scan a character list, testing a predicate at every suffix (models an
unanchored regex `test`). -/
def scanFor (p : List Char → Bool) : List Char → Bool
  | [] => p []
  | c :: rest => p (c :: rest) || scanFor p rest

/-- The technicality test of `toUserFriendlyMessage` in `page.tsx`:
`/request failed with status \d+/i`, `/^status \d+/i`, or
`/network|fetch|econnrefused|timeout/i` matches the message. -/
def isTechnicalMessage (raw : String) : Bool :=
  scanFor (matchPatDigit ("request failed with status ").data)
    (lowerChars raw) ||
  matchPatDigit ("status ").data (lowerChars raw) ||
  scanFor (List.isPrefixOf ("network").data) (lowerChars raw) ||
  scanFor (List.isPrefixOf ("fetch").data) (lowerChars raw) ||
  scanFor (List.isPrefixOf ("econnrefused").data) (lowerChars raw) ||
  scanFor (List.isPrefixOf ("timeout").data) (lowerChars raw)

/-- The `toUserFriendlyMessage` of `page.tsx` applied to an `Error`'s
message: technical messages are replaced by the fixed fallback; every
other message is returned verbatim. -/
def toUserFriendlyMessage (raw : String) : String :=
  if isTechnicalMessage raw then userFriendlyFallback else raw

/-! ## The study-pack data model (`frontend/src/types/api.ts`) -/

/-- A single quiz question with multiple-choice options. -/
structure QuizQuestion where
  question : String
  options : List String
  answer : String
deriving Repr, DecidableEq

/-- The `StudyPack` contract (`GenerateResponse`): summary bullets and
quiz questions. -/
structure GenerateResponse where
  summary : List String
  quiz : List QuizQuestion
deriving Repr, DecidableEq

/-! ## JSON text parsing (backend Response Extractor substrate)

Modelled from the spec: the backend's Response Extractor parses the raw
model text "as JSON".  The backend sources are not in the repository
snapshot, so the parser is a faithful executable model of ordinary JSON
parsing: strings with `\"`/`\\`-style escapes, arrays, objects, integer
numbers and the three literals, with whitespace between tokens.  A fuel
argument makes the recursion structural; `parseJsonText` supplies fuel
that exceeds what any input can consume. -/

/-- Drop leading JSON whitespace. -/
def skipWs (cs : List Char) : List Char := cs.dropWhile isWsChar

/-- Parse the body of a JSON string after the opening quote, handling the
escape sequences `\"`, `\\`, `\/`, `\n`, `\t`, `\r`. -/
def parseStrBody (acc : List Char) : List Char → Option (String × List Char)
  | [] => none
  | c :: rest =>
      if c = '\\' then
        match rest with
        | [] => none
        | e :: rest2 =>
            if e = '"' then parseStrBody ('"' :: acc) rest2
            else if e = '\\' then parseStrBody ('\\' :: acc) rest2
            else if e = '/' then parseStrBody ('/' :: acc) rest2
            else if e = 'n' then parseStrBody ('\n' :: acc) rest2
            else if e = 't' then parseStrBody ('\t' :: acc) rest2
            else if e = 'r' then parseStrBody ('\r' :: acc) rest2
            else none
      else if c = '"' then some (⟨acc.reverse⟩, rest)
      else parseStrBody (c :: acc) rest

/-- Parse a run of decimal digits into a value, requiring at least one. -/
def parseDigits (acc : Nat) (seen : Bool) : List Char → Option (Nat × List Char)
  | c :: rest =>
      if c.isDigit then parseDigits (acc * 10 + (c.toNat - '0'.toNat)) true rest
      else if seen then some (acc, c :: rest) else none
  | [] => if seen then some (acc, []) else none

mutual

/-- Parse one JSON value. -/
def parseVal : Nat → List Char → Option (Json × List Char)
  | 0, _ => none
  | fuel + 1, cs =>
    match skipWs cs with
    | [] => none
    | '"' :: rest =>
        match parseStrBody [] rest with
        | some (s, r) => some (.str s, r)
        | none => none
    | '{' :: rest =>
        match parseFields fuel rest with
        | some (fs, r) => some (.obj fs, r)
        | none => none
    | '[' :: rest =>
        match parseElems fuel rest with
        | some (vs, r) => some (.arr vs, r)
        | none => none
    | 't' :: 'r' :: 'u' :: 'e' :: rest => some (.bool true, rest)
    | 'f' :: 'a' :: 'l' :: 's' :: 'e' :: rest => some (.bool false, rest)
    | 'n' :: 'u' :: 'l' :: 'l' :: rest => some (.null, rest)
    | '-' :: rest =>
        match parseDigits 0 false rest with
        | some (n, r) => some (.num (-(n : Int)), r)
        | none => none
    | c :: rest =>
        if c.isDigit then
          match parseDigits 0 false (c :: rest) with
          | some (n, r) => some (.num (n : Int), r)
          | none => none
        else none

/-- Parse the elements of a JSON array after the opening bracket. -/
def parseElems : Nat → List Char → Option (List Json × List Char)
  | 0, _ => none
  | fuel + 1, cs =>
    match skipWs cs with
    | ']' :: rest => some ([], rest)
    | other =>
      match parseVal fuel other with
      | none => none
      | some (v, r) => parseElemsTail fuel v r

/-- After one array element: a comma continues the element list, a
closing bracket ends it. -/
def parseElemsTail : Nat → Json → List Char → Option (List Json × List Char)
  | 0, _, _ => none
  | fuel + 1, v, r =>
    match skipWs r with
    | ',' :: r2 =>
        match parseElems fuel r2 with
        | some (vs, r3) => some (v :: vs, r3)
        | none => none
    | ']' :: r2 => some ([v], r2)
    | _ => none

/-- Parse the fields of a JSON object after the opening brace. -/
def parseFields : Nat → List Char → Option (List (String × Json) × List Char)
  | 0, _ => none
  | fuel + 1, cs =>
    match skipWs cs with
    | '}' :: rest => some ([], rest)
    | '"' :: rest =>
      match parseStrBody [] rest with
      | none => none
      | some (k, r) =>
        match skipWs r with
        | ':' :: r2 =>
          match parseVal fuel r2 with
          | none => none
          | some (v, r3) => parseFieldsTail fuel k v r3
        | _ => none
    | _ => none

/-- After one object field: a comma continues the field list, a closing
brace ends it. -/
def parseFieldsTail : Nat → String → Json → List Char →
    Option (List (String × Json) × List Char)
  | 0, _, _, _ => none
  | fuel + 1, k, v, r =>
    match skipWs r with
    | ',' :: r4 =>
        match parseFields fuel r4 with
        | some (fs, r5) => some ((k, v) :: fs, r5)
        | none => none
    | '}' :: r4 => some ([(k, v)], r4)
    | _ => none

end

/-- Parse a complete JSON text: one value, surrounded by nothing but
whitespace.  The fuel `2 * length + 20` strictly dominates the recursion
depth any input of this length can force. -/
def parseJsonText (cs : List Char) : Option Json :=
  match parseVal (2 * cs.length + 20) (skipWs cs) with
  | some (j, rest) => if rest.all isWsChar then some j else none
  | none => none

/-! ## Canonical StudyPack JSON serialization

Used to state the extractor round-trip: a syntactically valid StudyPack
JSON object, rendered without inter-token whitespace. -/

/-- Escape one character for a JSON string literal. -/
def escapeChar (c : Char) : List Char :=
  if c = '"' then ['\\', '"']
  else if c = '\\' then ['\\', '\\']
  else [c]

/-- Escape the characters of a JSON string body. -/
def escapeChars : List Char → List Char
  | [] => []
  | c :: rest => escapeChar c ++ escapeChars rest

/-- Render a JSON string literal with its quotes. -/
def renderStr (s : String) : List Char :=
  '"' :: (escapeChars s.data ++ ['"'])

/-- Join rendered items with commas. -/
def commaSep : List (List Char) → List Char
  | [] => []
  | [x] => x
  | x :: xs => x ++ ',' :: commaSep xs

/-- Render a JSON array from its rendered items. -/
def renderArr (items : List (List Char)) : List Char :=
  '[' :: (commaSep items ++ [']'])

/-- The characters of a rendered object key followed by its colon,
as in `"question":`. -/
def keyPrefix (k : String) : List Char :=
  '"' :: (k.data ++ '"' :: [':'])

/-- Render one quiz item as a JSON object (the grouping follows the
parse order; the character sequence is the usual
`{"question":...,"options":...,"answer":...}`). -/
def renderItemChars (q : QuizQuestion) : List Char :=
  '{' :: (keyPrefix "question" ++ (renderStr q.question ++
    ',' :: (keyPrefix "options" ++ (renderArr (q.options.map renderStr) ++
    ',' :: (keyPrefix "answer" ++ (renderStr q.answer ++ ['}']))))))

/-- Render a StudyPack as a JSON object (the character sequence is the
usual `{"summary":[...],"quiz":[...]}`). -/
def renderPackChars (p : GenerateResponse) : List Char :=
  '{' :: (keyPrefix "summary" ++ (renderArr (p.summary.map renderStr) ++
    ',' :: (keyPrefix "quiz" ++
      (renderArr (p.quiz.map renderItemChars) ++ ['}']))))

/-- Render a StudyPack as a JSON string. -/
def renderPackString (p : GenerateResponse) : String := ⟨renderPackChars p⟩

/-- The JSON value a rendered quiz item denotes. -/
def itemJson (q : QuizQuestion) : Json :=
  .obj [("question", .str q.question),
        ("options", .arr (q.options.map .str)),
        ("answer", .str q.answer)]

/-- The JSON value a rendered StudyPack denotes. -/
def packJson (p : GenerateResponse) : Json :=
  .obj [("summary", .arr (p.summary.map .str)),
        ("quiz", .arr (p.quiz.map itemJson))]

/-! ## Response Extractor

Modelled from the spec: `extract(rawText) → StudyPack`; (a) direct JSON
parse of the full text, (b) on parse failure the substring from the
first `{` to the last `}`, (c) otherwise `MalformedOutput` with a
truncated excerpt.  After a successful parse the shape is validated:
a missing required key or a non-object is `MalformedOutput`, a
wrongly-typed field is `SchemaViolation`. -/

/-- Extraction failures of the Response Extractor. -/
inductive ExtractError where
  | malformedOutput (excerpt : String)
  | schemaViolation (detail : String)
deriving Repr, DecidableEq

/-- The substring from the first `{` to the last `}` of the text, when
both exist in that order. -/
def firstBraceSlice (cs : List Char) : Option (List Char) :=
  match cs.dropWhile (· ≠ '{') with
  | [] => none
  | t =>
    match t.reverse.dropWhile (· ≠ '}') with
    | [] => none
    | r => some r.reverse

/-- A truncated excerpt of the raw text for diagnostics. -/
def rawExcerpt (raw : String) : String := ⟨raw.data.take 80⟩

/-- Interpret a JSON value as a string. -/
def Json.asString : Json → Option String
  | .str s => some s
  | _ => none

/-- Interpret a list of JSON values as strings, all of them. -/
def asStrings : List Json → Option (List String)
  | [] => some []
  | j :: t =>
      match j.asString, asStrings t with
      | some s, some st => some (s :: st)
      | _, _ => none

/-- Interpret a JSON value as an array of strings. -/
def Json.asStringList : Json → Option (List String)
  | .arr xs => asStrings xs
  | _ => none

/-- Shape-validate one quiz item: `question` a non-empty string,
`options` an array of exactly 4 strings, `answer` a string. -/
def toQuizItem (j : Json) : Except ExtractError QuizQuestion :=
  match j with
  | .obj _ =>
    match j.getField "question", j.getField "options", j.getField "answer" with
    | some qj, some oj, some aj =>
      match qj.asString, oj.asStringList, aj.asString with
      | some q, some os, some a =>
        if q = "" then .error (.schemaViolation "empty question")
        else if os.length = 4 then .ok ⟨q, os, a⟩
        else .error (.schemaViolation "options must be exactly 4 strings")
      | _, _, _ => .error (.schemaViolation "quiz item field has wrong type")
    | _, _, _ => .error (.schemaViolation "quiz item missing a field")
  | _ => .error (.schemaViolation "quiz item is not an object")

/-- Shape-validate a list of JSON values as quiz items, propagating the
first failure. -/
def toQuizItems : List Json → Except ExtractError (List QuizQuestion)
  | [] => .ok []
  | j :: t =>
      match toQuizItem j, toQuizItems t with
      | .ok q, .ok qs => .ok (q :: qs)
      | .error e, _ => .error e
      | _, .error e => .error e

/-- Shape-validate a parsed JSON value as a full-pack StudyPack:
`summary` an array of strings, `quiz` an array of valid quiz items; a
non-object or missing key is `MalformedOutput`. -/
def toStudyPack (raw : String) (j : Json) : Except ExtractError GenerateResponse :=
  match j with
  | .obj _ =>
    match j.getField "summary", j.getField "quiz" with
    | some sj, some qj =>
      match sj.asStringList with
      | none => .error (.schemaViolation "summary must be an array of strings")
      | some summary =>
        match qj with
        | .arr items =>
          match toQuizItems items with
          | .ok quiz => .ok ⟨summary, quiz⟩
          | .error e => .error e
        | _ => .error (.schemaViolation "quiz must be an array")
    | _, _ => .error (.malformedOutput (rawExcerpt raw))
  | _ => .error (.malformedOutput (rawExcerpt raw))

/-- The Response Extractor: direct parse, then balanced-brace recovery,
then `MalformedOutput`. -/
def extract (raw : String) : Except ExtractError GenerateResponse :=
  match parseJsonText raw.data with
  | some j => toStudyPack raw j
  | none =>
    match firstBraceSlice raw.data with
    | some sub =>
      match parseJsonText sub with
      | some j => toStudyPack raw j
      | none => .error (.malformedOutput (rawExcerpt raw))
    | none => .error (.malformedOutput (rawExcerpt raw))

/-! ## Prompt Library

Modelled from the spec: `buildPrompt(notes, mode, options) → PromptSpec`,
pure and deterministic, with three modes, a versioned frozen template
(README: `study_gen_v1.py`, VERSION 1.0.0), count clamping for
quiz-only, and a rendered text embedding instructions, schema, a
few-shot example and formatting rules. -/

/-- The three generation modes. -/
inductive PromptMode where
  | fullPack
  | quizOnly
  | summaryOnly
deriving Repr, DecidableEq

/-- An immutable prompt value. -/
structure PromptSpec where
  mode : PromptMode
  version : String
  rendered : String
  questionCount : Option Nat
deriving Repr, DecidableEq

/-- Clamp a quiz-only question count into the 1–10 range. -/
def clampCount (n : Nat) : Nat := max 1 (min 10 n)

/-- The literal output-schema block of the v1 template. -/
def schemaBlock : PromptMode → String
  | .fullPack =>
      "Respond with exactly one JSON object: " ++
      "\x7b\"summary\": [string], \"quiz\": [\x7b\"question\": string, " ++
      "\"options\": [4 strings], \"answer\": string\x7d]\x7d"
  | .quizOnly =>
      "Respond with exactly one JSON object: " ++
      "\x7b\"quiz\": [\x7b\"question\": string, \"options\": [4 strings], " ++
      "\"answer\": string\x7d]\x7d"
  | .summaryOnly =>
      "Respond with exactly one JSON object: \x7b\"summary\": [string]\x7d"

/-- The few-shot example block of the v1 template. -/
def fewShotBlock : String :=
  "Example. Notes: water boils at 100 C. Output: " ++
  "\x7b\"summary\": [\"Water boils at 100 C.\"], \"quiz\": []\x7d"

/-- The formatting-rules block of the v1 template. -/
def rulesBlock : String :=
  "No prose outside the JSON. No markdown fences. No trailing commentary."

/-- The `buildPrompt` function over the append-only version registry: only version
`1.0.0` exists; its rendered wording is a pure function of the inputs. -/
def buildPrompt (version : String) (notes : String) (mode : PromptMode)
    (count : Option Nat) : Option PromptSpec :=
  if version = "1.0.0" then
    let n := match mode with
      | .quizOnly => some (clampCount (count.getD 3))
      | .fullPack => some ((count.getD 4).max 3 |>.min 6)
      | .summaryOnly => none
    some
      { mode := mode
        version := "1.0.0"
        rendered :=
          "You are a study assistant. " ++ schemaBlock mode ++ " " ++
          fewShotBlock ++ " " ++ rulesBlock ++
          (match n with
           | some k => " Produce " ++ toString k ++ " quiz items."
           | none => "") ++
          " Notes: " ++ notes
        questionCount := n }
  else none

/-! ## Quality Validator

Modelled from the spec: `validate(studyPack) → sequence of
ValidationWarning`, never throws, advisory only.  Checks per quiz item:
duplicate options after trimming/case-folding, answer not in the trimmed
option set, degenerate question (fewer tokens than a minimum threshold
or identical to one of its own options). -/

/-- Warning kinds reported by the Quality Validator. -/
inductive WarningKind where
  | duplicateOptions
  | answerNotInOptions
  | degenerateQuestion
deriving Repr, DecidableEq

/-- An advisory validation warning. -/
structure ValidationWarning where
  kind : WarningKind
  detail : String
deriving Repr, DecidableEq

/-- Normalize an option for the duplicate check: trim and case-fold
(spec 4.4 check 1, "equal after trimming/case-folding"). -/
def normalizeOpt (s : String) : String :=
  ⟨(jsTrim s).data.map Char.toLower⟩

/-- Count whitespace-separated tokens of a character list: `inTok` is
`true` while inside a token. -/
def countTokensAux (inTok : Bool) : List Char → Nat
  | [] => 0
  | c :: rest =>
      if isWsChar c then countTokensAux false rest
      else (if inTok then 0 else 1) + countTokensAux true rest

/-- Count whitespace-separated tokens of a character list. -/
def countTokens (cs : List Char) : Nat := countTokensAux false cs

/-- The minimum token threshold for a non-degenerate question. -/
def minQuestionTokens : Nat := 3

/-- Warnings for one quiz item: duplicate options compare after
trimming and case-folding (spec 4.4 check 1); the answer is looked up
in the trimmed option set only (spec 4.4 check 2). -/
def questionWarnings (q : QuizQuestion) : List ValidationWarning :=
  (if (q.options.map normalizeOpt).Nodup then []
   else [⟨.duplicateOptions, q.question⟩]) ++
  (if jsTrim q.answer ∈ q.options.map jsTrim then []
   else [⟨.answerNotInOptions, q.question⟩]) ++
  (if countTokens q.question.data < minQuestionTokens ∨ q.question ∈ q.options
   then [⟨.degenerateQuestion, q.question⟩] else [])

/-- The Quality Validator: all warnings over the quiz, in order. -/
def validateQuizQuality (p : GenerateResponse) : List ValidationWarning :=
  (p.quiz.map questionWarnings).flatten

/-! ## Generation Endpoint

Modelled from the spec: input validation (length bounds ~10 / ~10000,
messages as exercised by the repository's tests) → prompt construction
→ one LLM call → extraction → advisory quality validation → response.
The LLM Client is an oracle parameter `llm` from rendered prompt text to
either raw output or an `UpstreamUnavailable` detail. -/

/-- Input validation of `POST /api/v1/generate`: `none` when the text is
acceptable, otherwise the 422 `detail` message. -/
def validateInput (text : String) : Option String :=
  if text.length < 10 then some "text must not be less than 10 characters"
  else if text.length > 10000 then
    some "text must not be more than 10000 characters"
  else none

/-- The endpoint's typed result: a pack with advisory warnings, or an
HTTP error status with a `detail` message. -/
inductive EndpointResult where
  | success (pack : GenerateResponse) (warnings : List ValidationWarning)
  | failure (status : Nat) (detail : String)
deriving Repr, DecidableEq

/-- The generation endpoint orchestration. -/
def generateEndpoint (llm : String → Except String String)
    (text : String) : EndpointResult :=
  match validateInput text with
  | some msg => .failure 422 msg
  | none =>
    match buildPrompt "1.0.0" text .fullPack none with
    | none => .failure 500 "Failed to generate study pack. Please try again."
    | some prompt =>
      match llm prompt.rendered with
      | .error _ => .failure 500 "Failed to generate study pack. Please try again."
      | .ok raw =>
        match extract raw with
        | .error _ => .failure 500 "Failed to parse AI response as JSON. Please try again."
        | .ok pack => .success pack (validateQuizQuality pack)

/-- An LLM oracle that replies with fixed text (used in witnesses). -/
def llmStubOk : String → Except String String := fun _ => .ok "raw"

/-- An LLM oracle that fails like `UpstreamUnavailable` (used in
witnesses). -/
def llmStubDown : String → Except String String := fun _ => .error "unavailable"

/-! ## Claim C1 (corrected) -/

/-- Counterexample to C1 as stated: on a 500 response whose body is the
JSON text `null`, `error.detail` throws a raw property-access
`TypeError` in `generateStudyMaterials` — not an `Error` whose message
is the `detail` field or the fallback template. -/
theorem c1_counterexample :
    generateStudyMaterials 500 (some .null) = .jsTypeError := by
  rfl

/-- Claim C1 as amended: on every response with a status outside
200–299, `generateStudyMaterials` never resolves with a StudyPack; when
the parsed body is the JSON value `null`, the throw is a raw
property-access `TypeError` from `error.detail`; otherwise it throws an
`Error` whose message is the JavaScript string coercion of the body's
`detail` field when that field is present and truthy (the field itself
when it is a string), and the fallback `"Request failed with status N"`
when `detail` is absent or falsy — in particular when the body is
absent or unparseable. -/
theorem c1_amended (status : Nat) (body : Option Json)
    (h : responseOk status = false) :
    (∀ pack, generateStudyMaterials status body ≠ .success pack) ∧
    (body = some .null → generateStudyMaterials status body = .jsTypeError) ∧
    (∀ fields d, body.getD (.obj []) = .obj fields →
      fields.lookup "detail" = some d → d.truthy = true →
      generateStudyMaterials status body = .failure d.toMessage) ∧
    (∀ fields d, body.getD (.obj []) = .obj fields →
      fields.lookup "detail" = some d → d.truthy = false →
      generateStudyMaterials status body =
        .failure (fallbackMessage status)) ∧
    (∀ fields, body.getD (.obj []) = .obj fields →
      fields.lookup "detail" = none →
      generateStudyMaterials status body =
        .failure (fallbackMessage status)) := by
  refine ⟨?_, ?_, ?_, ?_, ?_⟩
  · intro pack hcontra
    cases hgp : jsGetProp (.val (body.getD (.obj []))) "detail" with
    | error e => simp [generateStudyMaterials, h, hgp] at hcontra
    | ok d => simp [generateStudyMaterials, h, hgp] at hcontra
  · intro hb
    subst hb
    simp [generateStudyMaterials, h, jsGetProp]
  · intro fields d hE hlk ht
    simp [generateStudyMaterials, h, hE, jsGetProp, hlk, JsVal.truthy, ht,
      JsVal.toMessage]
  · intro fields d hE hlk ht
    simp [generateStudyMaterials, h, hE, jsGetProp, hlk, JsVal.truthy, ht]
  · intro fields hE hlk
    simp [generateStudyMaterials, h, hE, jsGetProp, hlk, JsVal.truthy]

/-- Witness for the amended C1 at a concrete 500 response carrying a
truthy string `detail`. -/
theorem c1_amended_witness :
    generateStudyMaterials 500 (some (.obj [("detail", .str "boom")])) =
      .failure "boom" := by
  have h := (c1_amended 500 (some (.obj [("detail", .str "boom")]))
    (by decide)).2.2.1 [("detail", .str "boom")] (.str "boom") rfl rfl rfl
  simpa [Json.toMessage] using h

/-! ## Claim C3 -/

/-- Claim C3: both client functions send a POST whose JSON body is
exactly the object with single field `text` holding the notes, with
Content-Type `application/json`; `generateStudyMaterials` posts to
`/api/v1/generate` and the legacy `generateStudyPack` posts to
`/generate-study-pack`; on a 2xx response each returns the parsed
response body unchanged. -/
theorem c3_request_shape (notes : String) (status : Nat) (j : Json)
    (hok : responseOk status = true) :
    generateStudyMaterialsRequest notes =
      ⟨"/api/v1/generate", "POST", "application/json",
        .obj [("text", .str notes)]⟩ ∧
    generateStudyPackRequest notes =
      ⟨"/generate-study-pack", "POST", "application/json",
        .obj [("text", .str notes)]⟩ ∧
    generateStudyMaterials status (some j) = .success j ∧
    generateStudyPack status (some j) = .success j := by
  refine ⟨rfl, rfl, ?_, ?_⟩ <;>
    simp [generateStudyMaterials, generateStudyPack, hok]

/-- Witness for C3 at a concrete 200 response. -/
theorem c3_request_shape_witness :
    generateStudyMaterials 200 (some (.arr [])) = .success (.arr []) ∧
    generateStudyPack 200 (some (.arr [])) = .success (.arr []) := by
  have h := c3_request_shape "some notes" 200 (.arr []) (by decide)
  exact ⟨h.2.2.1, h.2.2.2⟩

/-! ## Claim C4 -/

/-- Claim C4 (spec-modelled): for every notes string shorter than the
minimum length of 10 characters, `POST /api/v1/generate` returns 422
with a `detail` describing the violated constraint, and the LLM Client
is never invoked — the outcome is identical under every LLM oracle. -/
theorem c4_short_input_422 (llm llm2 : String → Except String String)
    (text : String) (h : text.length < 10) :
    generateEndpoint llm text =
      .failure 422 "text must not be less than 10 characters" ∧
    generateEndpoint llm text = generateEndpoint llm2 text := by
  have hv : validateInput text =
      some "text must not be less than 10 characters" := by
    simp [validateInput, h]
  constructor <;> simp [generateEndpoint, hv]

/-- Witness for C4 at the one-character input of Scenario B, under two
different oracles. -/
theorem c4_short_input_422_witness :
    generateEndpoint llmStubOk "q" =
      .failure 422 "text must not be less than 10 characters" ∧
    generateEndpoint llmStubOk "q" = generateEndpoint llmStubDown "q" :=
  c4_short_input_422 llmStubOk llmStubDown "q" (by decide)

/-! ## Claim C6 -/

/-- Claim C6 (spec-modelled): `buildPrompt` is deterministic — two calls
with identical (version, notes, mode, count) inputs produce
byte-identical rendered prompt text, and equal `PromptSpec` values. -/
theorem c6_buildPrompt_deterministic (v1 v2 n1 n2 : String)
    (m1 m2 : PromptMode) (k1 k2 : Option Nat)
    (hv : v1 = v2) (hn : n1 = n2) (hm : m1 = m2) (hk : k1 = k2) :
    (buildPrompt v1 n1 m1 k1).map PromptSpec.rendered =
      (buildPrompt v2 n2 m2 k2).map PromptSpec.rendered ∧
    buildPrompt v1 n1 m1 k1 = buildPrompt v2 n2 m2 k2 := by
  subst hv hn hm hk
  exact ⟨rfl, rfl⟩

/-! ## Extractor round-trip lemmas -/

/-- Function `skipWs` keeps a list whose head is not whitespace. -/
theorem skipWs_cons (c : Char) (t : List Char) (h : isWsChar c = false) :
    skipWs (c :: t) = c :: t := by
  simp [skipWs, List.dropWhile_cons, h]

/-- A closing quote ends the string body. -/
theorem parseStrBody_quote (acc rest : List Char) :
    parseStrBody acc ('"' :: rest) = some (⟨acc.reverse⟩, rest) := by
  rw [parseStrBody.eq_def]
  norm_num
  intro h
  exact absurd h (by decide)

/-- An escaped quote is accumulated and parsing continues. -/
theorem parseStrBody_escQuote (acc rest : List Char) :
    parseStrBody acc ('\\' :: '"' :: rest) =
      parseStrBody ('"' :: acc) rest := by
  rw [parseStrBody.eq_def]
  norm_num

/-- An escaped backslash is accumulated and parsing continues. -/
theorem parseStrBody_escBackslash (acc rest : List Char) :
    parseStrBody acc ('\\' :: '\\' :: rest) =
      parseStrBody ('\\' :: acc) rest := by
  rw [parseStrBody.eq_def]
  norm_num
  intro h
  exact absurd h (by decide)

/-- Any other character is accumulated verbatim. -/
theorem parseStrBody_plain (c : Char) (acc rest : List Char)
    (h1 : c ≠ '"') (h2 : c ≠ '\\') :
    parseStrBody acc (c :: rest) = parseStrBody (c :: acc) rest := by
  rw [parseStrBody.eq_def]
  simp [h1, h2]

/-- Parsing an escaped string body recovers the original characters. -/
theorem parseStrBody_escape (cs : List Char) : ∀ acc rest,
    parseStrBody acc (escapeChars cs ++ '"' :: rest) =
      some (⟨acc.reverse ++ cs⟩, rest) := by
  induction cs with
  | nil =>
      intro acc rest
      simp only [escapeChars, List.nil_append]
      rw [parseStrBody_quote]
      simp
  | cons c cs ih =>
      intro acc rest
      by_cases h1 : c = '"'
      · subst h1
        rw [show escapeChars ('"' :: cs) ++ '"' :: rest =
          '\\' :: '"' :: (escapeChars cs ++ '"' :: rest) from by
            simp [escapeChars, escapeChar]]
        rw [parseStrBody_escQuote, ih]
        simp
      · by_cases h2 : c = '\\'
        · subst h2
          rw [show escapeChars ('\\' :: cs) ++ '"' :: rest =
            '\\' :: '\\' :: (escapeChars cs ++ '"' :: rest) from by
              simp [escapeChars, escapeChar]]
          rw [parseStrBody_escBackslash, ih]
          simp
        · rw [show escapeChars (c :: cs) ++ '"' :: rest =
            c :: (escapeChars cs ++ '"' :: rest) from by
              simp [escapeChars, escapeChar, h1, h2]]
          rw [parseStrBody_plain c _ _ h1 h2, ih]
          simp

/-- One `parseVal` step on a quote. -/
theorem parseVal_succ_quote (f : Nat) (rest : List Char) :
    parseVal (f + 1) ('"' :: rest) =
      match parseStrBody [] rest with
      | some (s, r) => some (.str s, r)
      | none => none := by
  rw [parseVal.eq_2, skipWs_cons _ _ (by decide)]
  rfl

/-- One `parseVal` step on an opening brace. -/
theorem parseVal_succ_brace (f : Nat) (rest : List Char) :
    parseVal (f + 1) ('{' :: rest) =
      match parseFields f rest with
      | some (fs, r) => some (.obj fs, r)
      | none => none := by
  rw [parseVal.eq_2, skipWs_cons _ _ (by decide)]
  rfl

/-- One `parseVal` step on an opening bracket. -/
theorem parseVal_succ_bracket (f : Nat) (rest : List Char) :
    parseVal (f + 1) ('[' :: rest) =
      match parseElems f rest with
      | some (vs, r) => some (.arr vs, r)
      | none => none := by
  rw [parseVal.eq_2, skipWs_cons _ _ (by decide)]
  rfl

/-- Parsing a rendered string literal yields that string. -/
theorem parseVal_renderStr_cons (f : Nat) (s : String) (rest : List Char) :
    parseVal (f + 1) ('"' :: (escapeChars s.data ++ '"' :: rest)) =
      some (.str s, rest) := by
  rw [parseVal_succ_quote, parseStrBody_escape]
  rfl

/-- Parsing a rendered string literal yields that string (appended
form). -/
theorem parseVal_renderStr (f : Nat) (s : String) (rest : List Char) :
    parseVal (f + 1) (renderStr s ++ rest) = some (.str s, rest) := by
  rw [show renderStr s ++ rest =
    '"' :: (escapeChars s.data ++ '"' :: rest) from by simp [renderStr]]
  exact parseVal_renderStr_cons f s rest

/-- A closing bracket ends an element list. -/
theorem parseElems_succ_close (f : Nat) (rest : List Char) :
    parseElems (f + 1) (']' :: rest) = some ([], rest) := by
  rw [parseElems.eq_2, skipWs_cons _ _ (by decide)]
  rfl

/-- An element list that does not start with a closing bracket parses
one value and continues with `parseElemsTail`. -/
theorem parseElems_succ_other (f : Nat) (c : Char) (t : List Char)
    (hws : isWsChar c = false) (hc : c ≠ ']') :
    parseElems (f + 1) (c :: t) =
      match parseVal f (c :: t) with
      | none => none
      | some (v, r) => parseElemsTail f v r := by
  rw [parseElems.eq_2, skipWs_cons _ _ hws]
  split
  · rename_i rest2 heq
    rw [List.cons.injEq] at heq
    exact absurd heq.1 hc
  · rfl

/-- A comma after an element continues the element list. -/
theorem parseElemsTail_comma (f : Nat) (v : Json) (r2 : List Char) :
    parseElemsTail (f + 1) v (',' :: r2) =
      match parseElems f r2 with
      | some (vs, r3) => some (v :: vs, r3)
      | none => none := by
  rw [parseElemsTail.eq_2, skipWs_cons _ _ (by decide)]
  rfl

/-- A closing bracket after an element ends the element list. -/
theorem parseElemsTail_close (f : Nat) (v : Json) (r2 : List Char) :
    parseElemsTail (f + 1) v (']' :: r2) = some ([v], r2) := by
  rw [parseElemsTail.eq_2, skipWs_cons _ _ (by decide)]
  rfl

/-- A closing brace ends a field list. -/
theorem parseFields_succ_close (f : Nat) (rest : List Char) :
    parseFields (f + 1) ('}' :: rest) = some ([], rest) := by
  rw [parseFields.eq_2, skipWs_cons _ _ (by decide)]
  rfl

/-- Parsing a rendered key and colon continues with the field's value. -/
theorem parseFields_key (f : Nat) (k : String) (x : List Char)
    (hk : escapeChars k.data = k.data) :
    parseFields (f + 1) (keyPrefix k ++ x) =
      match parseVal f x with
      | none => none
      | some (v, r3) => parseFieldsTail f k v r3 := by
  rw [show keyPrefix k ++ x = '"' :: (k.data ++ '"' :: ':' :: x) from by
    simp [keyPrefix]]
  rw [parseFields.eq_2, skipWs_cons _ _ (by decide)]
  show (match parseStrBody [] (k.data ++ '"' :: ':' :: x) with
        | none => none
        | some (k2, r) =>
          match skipWs r with
          | ':' :: r2 =>
            match parseVal f r2 with
            | none => none
            | some (v, r3) => parseFieldsTail f k2 v r3
          | _ => none) =
      match parseVal f x with
      | none => none
      | some (v, r3) => parseFieldsTail f k v r3
  rw [show parseStrBody [] (k.data ++ '"' :: ':' :: x) =
      some (k, ':' :: x) from by
    have h := parseStrBody_escape k.data [] (':' :: x)
    rw [hk] at h
    simpa using h]
  rfl

/-- A comma after a field continues the field list. -/
theorem parseFieldsTail_comma (f : Nat) (k : String) (v : Json)
    (r4 : List Char) :
    parseFieldsTail (f + 1) k v (',' :: r4) =
      match parseFields f r4 with
      | some (fs, r5) => some ((k, v) :: fs, r5)
      | none => none := by
  rw [parseFieldsTail.eq_2, skipWs_cons _ _ (by decide)]
  rfl

/-- A closing brace after a field ends the field list. -/
theorem parseFieldsTail_close (f : Nat) (k : String) (v : Json)
    (r4 : List Char) :
    parseFieldsTail (f + 1) k v ('}' :: r4) = some ([(k, v)], r4) := by
  rw [parseFieldsTail.eq_2, skipWs_cons _ _ (by decide)]
  rfl

/-- Parsing a rendered comma-separated list of string literals followed
by a closing bracket yields the string values. -/
theorem parseElems_strs (ss : List String) : ∀ f rest,
    2 * ss.length + 1 ≤ f →
    parseElems f (commaSep (ss.map renderStr) ++ ']' :: rest) =
      some (ss.map Json.str, rest) := by
  induction ss with
  | nil =>
      intro f rest h
      obtain ⟨g, rfl⟩ : ∃ g, f = g + 1 := ⟨f - 1, by omega⟩
      simp only [List.map_nil, commaSep, List.nil_append]
      exact parseElems_succ_close g rest
  | cons s ss ih =>
      intro f rest h
      simp only [List.length_cons] at h
      obtain ⟨g, rfl⟩ : ∃ g, f = g + 1 + 1 := ⟨f - 2, by omega⟩
      cases ss with
      | nil =>
          rw [show commaSep ((s :: []).map renderStr) ++ ']' :: rest =
            '"' :: (escapeChars s.data ++ '"' :: (']' :: rest)) from by
              simp [commaSep, renderStr]]
          rw [parseElems_succ_other _ _ _ (by decide) (by decide),
            parseVal_renderStr_cons]
          show parseElemsTail (g + 1) (.str s) (']' :: rest) =
            some ((s :: []).map Json.str, rest)
          rw [parseElemsTail_close]
          rfl
      | cons s2 t =>
          rw [show commaSep ((s :: s2 :: t).map renderStr) ++ ']' :: rest =
            '"' :: (escapeChars s.data ++ '"' :: (',' ::
              (commaSep ((s2 :: t).map renderStr) ++ ']' :: rest))) from by
              simp [commaSep, renderStr]]
          rw [parseElems_succ_other _ _ _ (by decide) (by decide),
            parseVal_renderStr_cons]
          show parseElemsTail (g + 1) (.str s)
              (',' :: (commaSep ((s2 :: t).map renderStr) ++ ']' :: rest)) =
            some ((s :: s2 :: t).map Json.str, rest)
          rw [parseElemsTail_comma,
            ih g rest (by simp only [List.length_cons] at h ⊢; omega)]
          rfl

/-- Parsing a rendered array of string literals yields the string
array. -/
theorem parseVal_renderArr_strs (ss : List String) (f : Nat)
    (rest : List Char) (h : 2 * ss.length + 1 ≤ f) :
    parseVal (f + 1) (renderArr (ss.map renderStr) ++ rest) =
      some (.arr (ss.map Json.str), rest) := by
  rw [show renderArr (ss.map renderStr) ++ rest =
    '[' :: (commaSep (ss.map renderStr) ++ ']' :: rest) from by
      simp [renderArr]]
  rw [parseVal_succ_bracket, parseElems_strs ss f rest h]

/-- Parsing the three rendered fields of a quiz item yields its field
list. -/
theorem parseFields_item (q : QuizQuestion) (hlen : q.options.length = 4)
    (g : Nat) (hg : 7 ≤ g) (rest : List Char) :
    parseFields (g + 6)
      (keyPrefix "question" ++ (renderStr q.question ++
        ',' :: (keyPrefix "options" ++
          (renderArr (q.options.map renderStr) ++
          ',' :: (keyPrefix "answer" ++
            (renderStr q.answer ++ '}' :: rest)))))) =
      some ([("question", Json.str q.question),
             ("options", Json.arr (q.options.map Json.str)),
             ("answer", Json.str q.answer)], rest) := by
  have h3 : parseFields (g + 2)
      (keyPrefix "answer" ++ (renderStr q.answer ++ '}' :: rest)) =
      some ([("answer", Json.str q.answer)], rest) := by
    rw [parseFields_key _ _ _ (by decide), parseVal_renderStr]
    show parseFieldsTail (g + 1) "answer" (.str q.answer) ('}' :: rest) = _
    rw [parseFieldsTail_close]
  have h2 : parseFields (g + 4)
      (keyPrefix "options" ++ (renderArr (q.options.map renderStr) ++
        ',' :: (keyPrefix "answer" ++ (renderStr q.answer ++ '}' :: rest)))) =
      some ([("options", Json.arr (q.options.map Json.str)),
             ("answer", Json.str q.answer)], rest) := by
    rw [parseFields_key _ _ _ (by decide),
      parseVal_renderArr_strs q.options (g + 2) _ (by rw [hlen]; omega)]
    show parseFieldsTail (g + 3) "options" (.arr (q.options.map Json.str))
        (',' :: (keyPrefix "answer" ++
          (renderStr q.answer ++ '}' :: rest))) = _
    rw [parseFieldsTail_comma, h3]
  rw [parseFields_key _ _ _ (by decide), parseVal_renderStr]
  show parseFieldsTail (g + 5) "question" (.str q.question)
      (',' :: (keyPrefix "options" ++ (renderArr (q.options.map renderStr) ++
        ',' :: (keyPrefix "answer" ++ (renderStr q.answer ++ '}' :: rest))))) =
    _
  rw [parseFieldsTail_comma, h2]

/-- Parsing a rendered quiz item (grouped form) yields its JSON value. -/
theorem parseVal_renderItem_cons (q : QuizQuestion)
    (hlen : q.options.length = 4) (g : Nat) (hg : 7 ≤ g)
    (rest : List Char) :
    parseVal (g + 7)
      ('{' :: (keyPrefix "question" ++ (renderStr q.question ++
        ',' :: (keyPrefix "options" ++
          (renderArr (q.options.map renderStr) ++
          ',' :: (keyPrefix "answer" ++
            (renderStr q.answer ++ '}' :: rest))))))) =
      some (itemJson q, rest) := by
  rw [parseVal_succ_brace, parseFields_item q hlen g hg rest]
  rfl

/-- Parsing a rendered comma-separated list of quiz items followed by a
closing bracket yields their JSON values. -/
theorem parseElems_items (qs : List QuizQuestion) : ∀ f rest,
    (∀ q ∈ qs, q.options.length = 4) → 2 * qs.length + 14 ≤ f →
    parseElems f (commaSep (qs.map renderItemChars) ++ ']' :: rest) =
      some (qs.map itemJson, rest) := by
  induction qs with
  | nil =>
      intro f rest _ h
      obtain ⟨g, rfl⟩ : ∃ g, f = g + 1 := ⟨f - 1, by omega⟩
      simp only [List.map_nil, commaSep, List.nil_append]
      exact parseElems_succ_close g rest
  | cons q qs ih =>
      intro f rest hshape h
      simp only [List.length_cons] at h
      obtain ⟨g, rfl⟩ : ∃ g, f = g + 9 := ⟨f - 9, by omega⟩
      have hq4 : q.options.length = 4 := hshape q (by simp)
      cases qs with
      | nil =>
          rw [show commaSep ((q :: []).map renderItemChars) ++ ']' :: rest =
            '{' :: (keyPrefix "question" ++ (renderStr q.question ++
              ',' :: (keyPrefix "options" ++
                (renderArr (q.options.map renderStr) ++
                ',' :: (keyPrefix "answer" ++
                  (renderStr q.answer ++ '}' :: (']' :: rest))))))) from by
              simp [commaSep, renderItemChars]]
          rw [parseElems_succ_other _ _ _ (by decide) (by decide),
            parseVal_renderItem_cons q hq4 (g + 1) (by omega)]
          show parseElemsTail (g + 8) (itemJson q) (']' :: rest) =
            some ((q :: []).map itemJson, rest)
          rw [parseElemsTail_close]
          rfl
      | cons q2 t =>
          rw [show commaSep ((q :: q2 :: t).map renderItemChars) ++
              ']' :: rest =
            '{' :: (keyPrefix "question" ++ (renderStr q.question ++
              ',' :: (keyPrefix "options" ++
                (renderArr (q.options.map renderStr) ++
                ',' :: (keyPrefix "answer" ++
                  (renderStr q.answer ++ '}' :: (',' ::
                    (commaSep ((q2 :: t).map renderItemChars) ++
                      ']' :: rest)))))))) from by
              simp [commaSep, renderItemChars]]
          rw [parseElems_succ_other _ _ _ (by decide) (by decide),
            parseVal_renderItem_cons q hq4 (g + 1) (by omega)]
          show parseElemsTail (g + 8) (itemJson q)
              (',' :: (commaSep ((q2 :: t).map renderItemChars) ++
                ']' :: rest)) =
            some ((q :: q2 :: t).map itemJson, rest)
          rw [parseElemsTail_comma,
            ih (g + 7) rest (fun z hz => hshape z (List.mem_cons_of_mem q hz))
              (by simp only [List.length_cons] at h ⊢; omega)]
          rfl

/-- Parsing a rendered array of quiz items yields the item array. -/
theorem parseVal_renderArr_items (qs : List QuizQuestion) (f : Nat)
    (rest : List Char) (hshape : ∀ q ∈ qs, q.options.length = 4)
    (h : 2 * qs.length + 14 ≤ f) :
    parseVal (f + 1) (renderArr (qs.map renderItemChars) ++ rest) =
      some (.arr (qs.map itemJson), rest) := by
  rw [show renderArr (qs.map renderItemChars) ++ rest =
    '[' :: (commaSep (qs.map renderItemChars) ++ ']' :: rest) from by
      simp [renderArr]]
  rw [parseVal_succ_bracket, parseElems_items qs f rest hshape h]

/-- Parsing a rendered StudyPack yields its JSON value. -/
theorem parseVal_renderPack (p : GenerateResponse)
    (hshape : ∀ q ∈ p.quiz, q.options.length = 4) (f : Nat)
    (rest : List Char)
    (h : 2 * p.summary.length + 2 * p.quiz.length + 22 ≤ f) :
    parseVal f (renderPackChars p ++ rest) = some (packJson p, rest) := by
  obtain ⟨g, rfl⟩ : ∃ g, f = g + 5 := ⟨f - 5, by omega⟩
  have hfields : parseFields (g + 4)
      (keyPrefix "summary" ++ (renderArr (p.summary.map renderStr) ++
        ',' :: (keyPrefix "quiz" ++
          (renderArr (p.quiz.map renderItemChars) ++ '}' :: rest)))) =
      some ([("summary", Json.arr (p.summary.map Json.str)),
             ("quiz", Json.arr (p.quiz.map itemJson))], rest) := by
    have hq : parseFields (g + 2)
        (keyPrefix "quiz" ++ (renderArr (p.quiz.map renderItemChars) ++
          '}' :: rest)) =
        some ([("quiz", Json.arr (p.quiz.map itemJson))], rest) := by
      rw [parseFields_key _ _ _ (by decide),
        parseVal_renderArr_items p.quiz g ('}' :: rest) hshape (by omega)]
      show parseFieldsTail (g + 1) "quiz" (.arr (p.quiz.map itemJson))
          ('}' :: rest) = _
      rw [parseFieldsTail_close]
    rw [parseFields_key _ _ _ (by decide),
      parseVal_renderArr_strs p.summary (g + 2) _ (by omega)]
    show parseFieldsTail (g + 3) "summary" (.arr (p.summary.map Json.str))
        (',' :: (keyPrefix "quiz" ++
          (renderArr (p.quiz.map renderItemChars) ++ '}' :: rest))) = _
    rw [parseFieldsTail_comma, hq]
  rw [show renderPackChars p ++ rest =
    '{' :: (keyPrefix "summary" ++ (renderArr (p.summary.map renderStr) ++
      ',' :: (keyPrefix "quiz" ++
        (renderArr (p.quiz.map renderItemChars) ++ '}' :: rest)))) from by
      simp [renderPackChars]]
  rw [parseVal_succ_brace, hfields]
  rfl

/-- Comma-joined non-empty items are at least as long as their count. -/
theorem commaSep_length_ge (items : List (List Char))
    (h : ∀ x ∈ items, 1 ≤ x.length) :
    items.length ≤ (commaSep items).length := by
  induction items with
  | nil => simp [commaSep]
  | cons x xs ih =>
      cases xs with
      | nil => simpa [commaSep] using h x (by simp)
      | cons y t =>
          have hx := h x (by simp)
          have ht := ih (fun z hz => h z (List.mem_cons_of_mem x hz))
          simp only [commaSep, List.length_append, List.length_cons] at ht ⊢
          omega

/-- A rendered StudyPack is longer than its element count. -/
theorem renderPack_length (p : GenerateResponse) :
    p.summary.length + p.quiz.length + 1 ≤ (renderPackChars p).length := by
  have hs := commaSep_length_ge (p.summary.map renderStr) (by
    intro x hx
    obtain ⟨s, hsm, rfl⟩ := List.mem_map.mp hx
    simp [renderStr])
  have hqz := commaSep_length_ge (p.quiz.map renderItemChars) (by
    intro x hx
    obtain ⟨q, hqm, rfl⟩ := List.mem_map.mp hx
    simp [renderItemChars])
  simp only [List.length_map] at hs hqz
  simp only [renderPackChars, renderArr, keyPrefix, List.length_append,
    List.length_cons, List.length_nil]
  omega

/-- Direct JSON parsing of a rendered StudyPack succeeds. -/
theorem parseJsonText_renderPack (p : GenerateResponse)
    (hshape : ∀ q ∈ p.quiz, q.options.length = 4) :
    parseJsonText (renderPackChars p) = some (packJson p) := by
  unfold parseJsonText
  rw [show skipWs (renderPackChars p) = renderPackChars p from by
    rw [show renderPackChars p =
      '{' :: (keyPrefix "summary" ++ (renderArr (p.summary.map renderStr) ++
        ',' :: (keyPrefix "quiz" ++
          (renderArr (p.quiz.map renderItemChars) ++ ['}'])))) from rfl]
    exact skipWs_cons _ _ (by decide)]
  have hlen := renderPack_length p
  have h := parseVal_renderPack p hshape
    (2 * (renderPackChars p).length + 20) [] (by omega)
  rw [List.append_nil] at h
  rw [h]
  rfl

/-- Reading back an array of rendered string values. -/
theorem asStrings_map (l : List String) :
    asStrings (l.map Json.str) = some l := by
  induction l with
  | nil => rfl
  | cons s t ih => simp [asStrings, Json.asString, ih]

/-- Shape-reading an array of string values succeeds. -/
theorem asStringList_map (l : List String) :
    Json.asStringList (.arr (l.map .str)) = some l := by
  simp [Json.asStringList, asStrings_map]

/-- Shape-validating the JSON value of a well-formed quiz item recovers
the item. -/
theorem toQuizItem_itemJson (q : QuizQuestion) (h4 : q.options.length = 4)
    (hq : q.question ≠ "") : toQuizItem (itemJson q) = .ok q := by
  rw [show toQuizItem (itemJson q) =
      (match (Json.str q.question).asString,
          (Json.arr (q.options.map Json.str)).asStringList,
          (Json.str q.answer).asString with
        | some q2, some os, some a =>
          if q2 = "" then .error (.schemaViolation "empty question")
          else if os.length = 4 then .ok ⟨q2, os, a⟩
          else .error (.schemaViolation "options must be exactly 4 strings")
        | _, _, _ =>
            .error (.schemaViolation "quiz item field has wrong type") :
        Except ExtractError QuizQuestion) from rfl]
  rw [asStringList_map]
  show (if q.question = "" then
      (Except.error (ExtractError.schemaViolation "empty question") :
        Except ExtractError QuizQuestion)
    else if q.options.length = 4 then .ok ⟨q.question, q.options, q.answer⟩
    else .error (.schemaViolation "options must be exactly 4 strings")) =
    .ok q
  rw [if_neg hq, if_pos h4]

/-- Shape-validating a list of well-formed rendered quiz items recovers
the list. -/
theorem toQuizItems_map (qs : List QuizQuestion)
    (h : ∀ q ∈ qs, q.options.length = 4 ∧ q.question ≠ "") :
    toQuizItems (qs.map itemJson) = Except.ok qs := by
  induction qs with
  | nil => rfl
  | cons q t ih =>
      have hq := h q (by simp)
      simp [toQuizItems, toQuizItem_itemJson q hq.1 hq.2,
        ih (fun z hz => h z (List.mem_cons_of_mem q hz))]

/-- The StudyPack shape required for an exact extractor round trip:
exactly 4 options and a non-empty question per quiz item. -/
def packShapeOk (p : GenerateResponse) : Prop :=
  ∀ q ∈ p.quiz, q.options.length = 4 ∧ q.question ≠ ""

instance (p : GenerateResponse) : Decidable (packShapeOk p) := by
  unfold packShapeOk
  infer_instance

/-- Shape-validating the JSON value of a well-shaped StudyPack recovers
the pack. -/
theorem toStudyPack_packJson (raw : String) (p : GenerateResponse)
    (hshape : packShapeOk p) : toStudyPack raw (packJson p) = .ok p := by
  rw [show toStudyPack raw (packJson p) =
      (match Json.asStringList (.arr (p.summary.map Json.str)) with
        | none =>
            .error (.schemaViolation "summary must be an array of strings")
        | some summary =>
          match toQuizItems (p.quiz.map itemJson) with
          | .ok quiz => .ok ⟨summary, quiz⟩
          | .error e => .error e :
        Except ExtractError GenerateResponse) from rfl]
  rw [asStringList_map, toQuizItems_map p.quiz hshape]

/-- The balanced-brace slice of a brace-free-prose embedding is the
embedded body. -/
theorem firstBraceSlice_embed (pre post t : List Char)
    (h1 : '{' ∉ pre) (h2 : '}' ∉ post)
    (hl : ('{' :: t).getLast? = some '}') :
    firstBraceSlice (pre ++ ('{' :: t) ++ post) = some ('{' :: t) := by
  obtain ⟨l2, hrev⟩ : ∃ l2, ('{' :: t).reverse = '}' :: l2 := by
    cases hr : ('{' :: t).reverse with
    | nil => simp at hr
    | cons c l2 =>
        have : ('{' :: t).reverse.head? = some '}' := by
          rw [List.head?_reverse]
          exact hl
        rw [hr] at this
        simp at this
        exact ⟨l2, by rw [this]⟩
  have hd : List.dropWhile (· ≠ '{') (pre ++ ('{' :: t) ++ post) =
      '{' :: (t ++ post) := by
    rw [List.append_assoc, List.dropWhile_append]
    have hpre : List.dropWhile (fun c => c ≠ '{') pre = [] := by
      rw [List.dropWhile_eq_nil_iff]
      intro x hx
      simp
      intro hcontra
      exact h1 (hcontra ▸ hx)
    rw [show ('{' :: t) ++ post = '{' :: (t ++ post) from rfl]
    rw [hpre]
    simp [List.dropWhile_cons]
  unfold firstBraceSlice
  rw [hd]
  show (match ('{' :: (t ++ post)).reverse.dropWhile (· ≠ '}') with
        | [] => none
        | r => some r.reverse) = some ('{' :: t)
  have hcalc : ('{' :: (t ++ post)).reverse.dropWhile (· ≠ '}') =
      '}' :: l2 := by
    rw [show ('{' :: (t ++ post)) = ('{' :: t) ++ post from by simp,
      List.reverse_append, List.dropWhile_append]
    have hpost : List.dropWhile (fun c => c ≠ '}') post.reverse = [] := by
      rw [List.dropWhile_eq_nil_iff]
      intro x hx
      rw [List.mem_reverse] at hx
      simp
      intro hcontra
      exact h2 (hcontra ▸ hx)
    rw [hpost, hrev]
    simp [List.dropWhile_cons]
  rw [hcalc]
  show some (('}' :: l2).reverse) = some ('{' :: t)
  rw [← hrev, List.reverse_reverse]

/-- The Response Extractor round trip: a rendered StudyPack embedded in
prose whose leading part carries no opening brace and whose trailing
part carries no closing brace — and which defeats the direct parse or is
pure whitespace — is recovered exactly. -/
theorem extract_embedded (p : GenerateResponse) (hshape : packShapeOk p)
    (pre post : List Char) (h1 : '{' ∉ pre) (h2 : '}' ∉ post)
    (hdir : parseJsonText (pre ++ renderPackChars p ++ post) = none ∨
      (pre.all isWsChar = true ∧ post.all isWsChar = true)) :
    extract ⟨pre ++ renderPackChars p ++ post⟩ = .ok p := by
  have hshape4 : ∀ q ∈ p.quiz, q.options.length = 4 :=
    fun q hq => (hshape q hq).1
  have hrpc : renderPackChars p =
      '{' :: (keyPrefix "summary" ++ (renderArr (p.summary.map renderStr) ++
        ',' :: (keyPrefix "quiz" ++
          (renderArr (p.quiz.map renderItemChars) ++ ['}'])))) := rfl
  rcases hdir with hdir | ⟨hpre, hpost⟩
  · unfold extract
    rw [show (⟨pre ++ renderPackChars p ++ post⟩ : String).data =
      pre ++ renderPackChars p ++ post from rfl]
    rw [hdir]
    show (match firstBraceSlice (pre ++ renderPackChars p ++ post) with
          | some sub =>
            match parseJsonText sub with
            | some j => toStudyPack ⟨pre ++ renderPackChars p ++ post⟩ j
            | none =>
                .error (.malformedOutput
                  (rawExcerpt ⟨pre ++ renderPackChars p ++ post⟩))
          | none =>
              .error (.malformedOutput
                (rawExcerpt ⟨pre ++ renderPackChars p ++ post⟩))) = .ok p
    rw [show pre ++ renderPackChars p ++ post =
      pre ++ ('{' :: (keyPrefix "summary" ++
        (renderArr (p.summary.map renderStr) ++
        ',' :: (keyPrefix "quiz" ++
          (renderArr (p.quiz.map renderItemChars) ++ ['}']))))) ++ post from by
      rw [← hrpc]]
    have hlast : ('{' :: (keyPrefix "summary" ++
        (renderArr (p.summary.map renderStr) ++
        ',' :: (keyPrefix "quiz" ++
          (renderArr (p.quiz.map renderItemChars) ++ ['}']))))).getLast? =
        some '}' := by
      rw [show '{' :: (keyPrefix "summary" ++
          (renderArr (p.summary.map renderStr) ++
          ',' :: (keyPrefix "quiz" ++
            (renderArr (p.quiz.map renderItemChars) ++ ['}'])))) =
        ('{' :: (keyPrefix "summary" ++
          (renderArr (p.summary.map renderStr) ++
          ',' :: (keyPrefix "quiz" ++
            renderArr (p.quiz.map renderItemChars))))) ++ ['}'] from by
        simp]
      rw [List.getLast?_concat]
    rw [firstBraceSlice_embed pre post _ h1 h2 hlast]
    rw [← hrpc]
    show (match parseJsonText (renderPackChars p) with
          | some j => toStudyPack ⟨pre ++ renderPackChars p ++ post⟩ j
          | none =>
              .error (.malformedOutput
                (rawExcerpt ⟨pre ++ renderPackChars p ++ post⟩))) = .ok p
    rw [parseJsonText_renderPack p hshape4]
    show toStudyPack ⟨pre ++ renderPackChars p ++ post⟩ (packJson p) = .ok p
    exact toStudyPack_packJson _ p hshape
  · have hskip : skipWs (pre ++ renderPackChars p ++ post) =
        renderPackChars p ++ post := by
      rw [List.append_assoc]
      unfold skipWs
      rw [List.dropWhile_append]
      have hpre2 : List.dropWhile isWsChar pre = [] := by
        rw [List.dropWhile_eq_nil_iff]
        intro x hx
        exact (List.all_eq_true.mp hpre) x hx
      rw [hpre2]
      rw [hrpc]
      simp [List.dropWhile_cons]
      intro hcontra
      exact absurd hcontra (by decide)
    have hpj : parseJsonText (pre ++ renderPackChars p ++ post) =
        some (packJson p) := by
      unfold parseJsonText
      rw [hskip]
      have hlen := renderPack_length p
      have h := parseVal_renderPack p hshape4
        (2 * (pre ++ renderPackChars p ++ post).length + 20) post (by
          simp only [List.length_append]
          omega)
      rw [h]
      show (if post.all isWsChar then some (packJson p) else none) =
        some (packJson p)
      rw [hpost]
      rfl
    unfold extract
    rw [show (⟨pre ++ renderPackChars p ++ post⟩ : String).data =
      pre ++ renderPackChars p ++ post from rfl]
    rw [hpj]
    show toStudyPack ⟨pre ++ renderPackChars p ++ post⟩ (packJson p) = .ok p
    exact toStudyPack_packJson _ p hshape

deriving instance DecidableEq for Except

set_option maxRecDepth 10000

/-! ## Claim C5 (corrected) -/

/-- A tiny well-shaped pack for the C5 counterexample. -/
def cex5Pack : GenerateResponse := ⟨["a"], []⟩

/-- A well-shaped pack for the C5 witness. -/
def c5WitnessPack : GenerateResponse :=
  ⟨["water boils at 100 C"],
   [⟨"what temperature does water boil at",
     ["100 C", "90 C", "80 C", "70 C"], "100 C"⟩]⟩

/-- Counterexample to C5 as stated: with truly arbitrary surrounding
prose the round trip fails — prose containing a stray opening brace
(`note \x7b `) defeats the first-brace/last-brace recovery, and a valid
embedded StudyPack is not extracted. -/
theorem c5_counterexample :
    packShapeOk cex5Pack ∧
    extract ("note \x7b " ++ renderPackString cex5Pack) =
      .error (.malformedOutput ("note \x7b " ++ renderPackString cex5Pack)) := by
  constructor
  · decide
  · decide

/-- Claim C5 as amended (spec-modelled): for every well-shaped StudyPack
(4 options and a non-empty question per quiz item) embedded in
surrounding prose whose leading part contains no opening brace and
whose trailing part contains no closing brace, and which either defeats
the direct JSON parse or is whitespace-only, the Response Extractor
recovers an equal StudyPack through the balanced-brace recovery step. -/
theorem c5_extract_roundtrip (p : GenerateResponse) (hshape : packShapeOk p)
    (pre post : List Char) (h1 : '{' ∉ pre) (h2 : '}' ∉ post)
    (hdir : parseJsonText (pre ++ renderPackChars p ++ post) = none ∨
      (pre.all isWsChar = true ∧ post.all isWsChar = true)) :
    extract ⟨pre ++ renderPackChars p ++ post⟩ = .ok p :=
  extract_embedded p hshape pre post h1 h2 hdir

/-- Witness for the amended C5 at a concrete pack wrapped in whitespace
prose. -/
theorem c5_extract_roundtrip_witness :
    extract ⟨" \n ".data ++ renderPackChars c5WitnessPack ++ "  ".data⟩ =
      .ok c5WitnessPack :=
  c5_extract_roundtrip c5WitnessPack (by decide) (" \n ").data ("  ").data
    (by decide) (by decide) (Or.inr ⟨by decide, by decide⟩)

/-! ## Claim C2 (corrected) -/

/-- A quiz item that passes shape validation has exactly 4 options. -/
theorem toQuizItem_ok_length (j : Json) (q : QuizQuestion)
    (h : toQuizItem j = .ok q) : q.options.length = 4 := by
  cases j with
  | obj fields =>
      simp only [toQuizItem] at h
      split at h
      · split at h
        · split at h
          · exact absurd h (by simp)
          · split at h
            · cases h
              assumption
            · exact absurd h (by simp)
        · exact absurd h (by simp)
      · exact absurd h (by simp)
  | null => exact absurd h (by simp [toQuizItem])
  | bool b => exact absurd h (by simp [toQuizItem])
  | num n => exact absurd h (by simp [toQuizItem])
  | str s => exact absurd h (by simp [toQuizItem])
  | arr xs => exact absurd h (by simp [toQuizItem])

/-- Every item of a shape-validated quiz list has exactly 4 options. -/
theorem toQuizItems_ok_length (js : List Json) : ∀ qs,
    toQuizItems js = .ok qs → ∀ q ∈ qs, q.options.length = 4 := by
  induction js with
  | nil =>
      intro qs h q hq
      simp only [toQuizItems] at h
      cases h
      simp at hq
  | cons j t ih =>
      intro qs h q hq
      simp only [toQuizItems] at h
      split at h
      · rename_i q0 qs0 hj ht
        cases h
        rcases List.mem_cons.mp hq with rfl | hmem
        · exact toQuizItem_ok_length j q hj
        · exact ih qs0 ht q hmem
      · exact absurd h (by simp)
      · exact absurd h (by simp)

/-- Every quiz item of a shape-validated StudyPack has exactly 4
options. -/
theorem toStudyPack_ok_shape (raw : String) (j : Json)
    (pack : GenerateResponse) (h : toStudyPack raw j = .ok pack) :
    ∀ q ∈ pack.quiz, q.options.length = 4 := by
  intro q hq
  cases j with
  | obj fields =>
      simp only [toStudyPack] at h
      split at h
      · split at h
        · exact absurd h (by simp)
        · split at h
          · split at h
            · rename_i summary quiz items hquiz
              cases h
              exact toQuizItems_ok_length _ _ hquiz q hq
            · exact absurd h (by simp)
          · exact absurd h (by simp)
      · exact absurd h (by simp)
  | null => exact absurd h (by simp [toStudyPack])
  | bool b => exact absurd h (by simp [toStudyPack])
  | num n => exact absurd h (by simp [toStudyPack])
  | str s => exact absurd h (by simp [toStudyPack])
  | arr xs => exact absurd h (by simp [toStudyPack])

/-- Every quiz item of an extracted StudyPack has exactly 4 options. -/
theorem extract_ok_shape (raw : String) (pack : GenerateResponse)
    (h : extract raw = .ok pack) :
    ∀ q ∈ pack.quiz, q.options.length = 4 := by
  simp only [extract] at h
  split at h
  · exact toStudyPack_ok_shape _ _ _ h
  · split at h
    · split at h
      · exact toStudyPack_ok_shape _ _ _ h
      · exact absurd h (by simp)
    · exact absurd h (by simp)

/-- Counterexample data for C2: a StudyPack whose single quiz item has
4 distinct options but an answer that is not among them. -/
def cexAnswerPack : GenerateResponse :=
  ⟨["Photosynthesis converts light."],
   [⟨"What pigment absorbs light in photosynthesis",
     ["Melanin", "Chlorophyll", "Carotene", "Haemoglobin"],
     "Xanthophyll"⟩]⟩

/-- The single quiz item of `cexAnswerPack`. -/
def cexAnswerItem : QuizQuestion :=
  ⟨"What pigment absorbs light in photosynthesis",
   ["Melanin", "Chlorophyll", "Carotene", "Haemoglobin"], "Xanthophyll"⟩

/-- An LLM oracle replying with the rendered `cexAnswerPack`. -/
def cexLlm : String → Except String String :=
  fun _ => .ok (renderPackString cexAnswerPack)

/-- The notes input of Scenario A. -/
def cexText : String :=
  "Photosynthesis converts sunlight into glucose using chlorophyll."

/-- The endpoint run on `cexLlm` succeeds and returns `cexAnswerPack`
unchanged with one advisory warning. -/
theorem cexRun : generateEndpoint cexLlm cexText =
    .success cexAnswerPack
      [⟨.answerNotInOptions,
        "What pigment absorbs light in photosynthesis"⟩] := by
  have hex : extract (renderPackString cexAnswerPack) =
      .ok cexAnswerPack := by
    have h := extract_embedded cexAnswerPack (by decide) [] [] (by decide)
      (by decide) (Or.inr ⟨rfl, rfl⟩)
    simpa [renderPackString] using h
  have hv : validateInput cexText = none := by decide
  have hw : validateQuizQuality cexAnswerPack =
      [⟨.answerNotInOptions,
        "What pigment absorbs light in photosynthesis"⟩] := by decide
  simp [generateEndpoint, hv, buildPrompt, cexLlm, hex, hw]

/-- Counterexample to C2 as stated: a 200 response can carry a QuizItem
whose `answer` equals none of its 4 options — the Quality Validator only
flags it. -/
theorem c2_counterexample :
    generateEndpoint cexLlm cexText =
      .success cexAnswerPack
        [⟨.answerNotInOptions,
          "What pigment absorbs light in photosynthesis"⟩] ∧
    cexAnswerPack.quiz = [cexAnswerItem] ∧
    cexAnswerItem.answer ∉ cexAnswerItem.options := by
  refine ⟨cexRun, by decide, by decide⟩

/-- Claim C2 as amended (spec-modelled): every QuizItem in a StudyPack
returned with status 200 has an `options` field of exactly 4 strings —
this part is schema-enforced by the Response Extractor; distinctness of
the options and membership of `answer` among them are advisory only
(flagged by the Quality Validator, with the pack returned unchanged). -/
theorem c2_options_shape (llm : String → Except String String)
    (text : String) (pack : GenerateResponse)
    (ws : List ValidationWarning)
    (h : generateEndpoint llm text = .success pack ws) :
    ∀ q ∈ pack.quiz, q.options.length = 4 := by
  simp only [generateEndpoint] at h
  split at h
  · exact absurd h (by simp)
  · split at h
    · exact absurd h (by simp)
    · split at h
      · exact absurd h (by simp)
      · split at h
        · exact absurd h (by simp)
        · rename_i prompt hprompt raw hraw pack2 hex
          cases h
          exact extract_ok_shape _ _ hex

/-- Witness for the amended C2 at the counterexample run: the returned
item indeed has exactly 4 options. -/
theorem c2_options_shape_witness : cexAnswerItem.options.length = 4 :=
  c2_options_shape cexLlm cexText cexAnswerPack
    [⟨.answerNotInOptions,
      "What pigment absorbs light in photosynthesis"⟩]
    cexRun cexAnswerItem (by decide)

/-! ## Claim C7 -/

/-- An LLM oracle with a fixed reply. -/
def constLlm (out : String) : String → Except String String :=
  fun _ => .ok out

/-- Claim C7 (spec-modelled): the Quality Validator is a total function
returning a sequence of ValidationWarning values and leaves the pack
unchanged — on any valid run the endpoint returns the extracted pack
itself together with the warnings; an item whose answer is absent from
its trimmed option set is flagged with an `answerNotInOptions` warning
but remains in the returned quiz. -/
theorem c7_validator_advisory (text llmOut : String)
    (pack : GenerateResponse)
    (hval : validateInput text = none) (hex : extract llmOut = .ok pack)
    (q : QuizQuestion) (hq : q ∈ pack.quiz)
    (hans : jsTrim q.answer ∉ q.options.map jsTrim) :
    generateEndpoint (constLlm llmOut) text =
      .success pack (validateQuizQuality pack) ∧
    (⟨.answerNotInOptions, q.question⟩ : ValidationWarning) ∈
      validateQuizQuality pack ∧
    q ∈ pack.quiz := by
  refine ⟨?_, ?_, hq⟩
  · simp [generateEndpoint, hval, buildPrompt, constLlm, hex]
  · have hmem : (⟨.answerNotInOptions, q.question⟩ : ValidationWarning) ∈
        questionWarnings q := by
      simp only [questionWarnings]
      rw [if_neg hans]
      simp
    exact List.mem_flatten.mpr
      ⟨questionWarnings q, List.mem_map_of_mem _ hq, hmem⟩

/-- Witness for C7 at a concrete run whose single item carries a wrong
answer: the pack is returned unchanged and the warning is present. -/
theorem c7_validator_advisory_witness :
    generateEndpoint (constLlm (renderPackString cexAnswerPack)) cexText =
      .success cexAnswerPack (validateQuizQuality cexAnswerPack) ∧
    (⟨.answerNotInOptions,
      "What pigment absorbs light in photosynthesis"⟩ :
        ValidationWarning) ∈ validateQuizQuality cexAnswerPack ∧
    cexAnswerItem ∈ cexAnswerPack.quiz := by
  refine c7_validator_advisory cexText (renderPackString cexAnswerPack)
    cexAnswerPack (by decide) ?_ cexAnswerItem (by decide) (by decide)
  have h := extract_embedded cexAnswerPack (by decide) [] [] (by decide)
    (by decide) (Or.inr ⟨rfl, rfl⟩)
  simpa [renderPackString] using h

/-! ## Claim C10 (corrected) -/

/-- A successful `getField` forces the value to be an object with a
matching `lookup`. -/
theorem getField_some (j : Json) (k : String) (d : Json)
    (h : j.getField k = some d) :
    ∃ fields, j = .obj fields ∧ fields.lookup k = some d := by
  cases j <;> simp [Json.getField] at h
  case obj fields => exact ⟨fields, rfl, h⟩

/-- Counterexample to C10 as stated: on a 500 response whose body is
absent or unparseable, the legacy `generateStudyPack` fails with a raw
property-access `TypeError` (from `error.detail[0]` with `detail`
undefined), not with the fallback `Error`. -/
theorem c10_counterexample : generateStudyPack 500 none = .jsTypeError := by
  rfl

/-- Claim C10 as amended: on a non-2xx response the legacy
`generateStudyPack` rejects with the fallback `Error` when the body's
`detail` is a non-empty string (the 500 shape), and with `detail[0].msg`
when `detail` is an array whose first element is an object carrying a
non-empty string `msg` (the 422 shape); but when `detail` is absent —
in particular when the body is absent or unparseable — the rejection is
a property-access `TypeError`. -/
theorem c10_amended (status : Nat) (body : Option Json)
    (h : responseOk status = false) :
    (∀ s, (body.getD (.obj [])).getField "detail" = some (.str s) → s ≠ "" →
      generateStudyPack status body = .failure (fallbackMessage status)) ∧
    (∀ fs t m,
      (body.getD (.obj [])).getField "detail" = some (.arr (.obj fs :: t)) →
      fs.lookup "msg" = some (.str m) → m ≠ "" →
      generateStudyPack status body = .failure m) ∧
    ((body.getD (.obj [])).getField "detail" = none →
      generateStudyPack status body = .jsTypeError) := by
  refine ⟨?_, ?_, ?_⟩
  · intro s hd hs
    obtain ⟨fields, hE, hlk⟩ := getField_some _ _ _ hd
    have hdata : ∃ c cs, s.data = c :: cs := by
      cases hsd : s.data with
      | nil =>
          exfalso
          apply hs
          cases s
          simp at hsd
          simp [hsd]
      | cons c cs => exact ⟨c, cs, rfl⟩
    obtain ⟨c, cs, hsd⟩ := hdata
    simp [generateStudyPack, h, hE, jsGetProp, hlk, jsIndex, hsd,
      JsVal.truthy, Json.truthy]
  · intro fs t m hd hm hmne
    obtain ⟨fields, hE, hlk⟩ := getField_some _ _ _ hd
    simp [generateStudyPack, h, hE, jsGetProp, hlk, jsIndex, hm,
      JsVal.truthy, Json.truthy, JsVal.toMessage, Json.toMessage,
      String.isEmpty_iff, hmne]
  · intro hd
    cases hb : body.getD (.obj []) with
    | obj fields =>
        have hlk : fields.lookup "detail" = none := by
          simpa [hb, Json.getField] using hd
        simp [generateStudyPack, h, hb, jsGetProp, hlk, jsIndex]
    | null => simp [generateStudyPack, h, hb, jsGetProp]
    | bool b => simp [generateStudyPack, h, hb, jsGetProp, jsIndex]
    | num n => simp [generateStudyPack, h, hb, jsGetProp, jsIndex]
    | str s => simp [generateStudyPack, h, hb, jsGetProp, jsIndex]
    | arr xs => simp [generateStudyPack, h, hb, jsGetProp, jsIndex]

/-- Witness for the amended C10: a concrete 422 body in the
FastAPI validation shape rejects with its first validation message, and
a concrete 500 body with a string `detail` rejects with the fallback. -/
theorem c10_amended_witness :
    generateStudyPack 422
      (some (.obj [("detail",
        .arr [.obj [("loc", .arr [.str "body", .str "text"]),
                    ("msg", .str "text must not be less than 10 characters")]])])) =
      .failure "text must not be less than 10 characters" ∧
    generateStudyPack 500
      (some (.obj [("detail",
        .str "Failed to generate study pack. Please try again.")])) =
      .failure (fallbackMessage 500) := by
  constructor
  · exact (c10_amended 422 _ (by decide)).2.1
      [("loc", .arr [.str "body", .str "text"]),
       ("msg", .str "text must not be less than 10 characters")] [] _
      rfl rfl (by decide)
  · exact (c10_amended 500 _ (by decide)).1
      "Failed to generate study pack. Please try again." rfl (by decide)

/-! ## Claim C8 -/

/-- The head of `dropWhile p l`, when present, fails `p`. -/
theorem head?_dropWhile_false {α : Type} (p : α → Bool) (l : List α)
    (c : α) (h : (l.dropWhile p).head? = some c) : p c = false := by
  have hm := List.head?_dropWhile_not p l
  rw [h] at hm
  exact hm

/-- A non-empty suffix has the same last element as the whole list. -/
theorem getLast?_of_suffix {α : Type} {l₁ l₂ : List α}
    (h : l₁ <:+ l₂) (hne : l₁ ≠ []) : l₁.getLast? = l₂.getLast? := by
  obtain ⟨t, rfl⟩ := h
  rw [List.getLast?_append]
  cases hl : l₁.getLast? with
  | none => exact absurd (List.getLast?_eq_none_iff.mp hl) hne
  | some c => rfl

/-- Claim C8: `Home.handleSubmit` returns without invoking
`generateStudyPack` exactly when the trimmed notes are empty (the submit
is disabled) or a request is already loading; otherwise the text sent is
`notes.trim()`, which carries no leading or trailing whitespace. -/
theorem c8_trimmed_submit (notes : String) (loading : Bool) :
    handleSubmit notes loading =
      (if jsTrim notes = "" ∨ loading = true then none
       else some (jsTrim notes)) ∧
    edgeWsFree (jsTrim notes).data = true := by
  constructor
  · by_cases h1 : jsTrim notes = "" <;> by_cases h2 : loading = true <;>
      simp [handleSubmit, String.isEmpty_iff, h1, h2]
  · have hdata : (jsTrim notes).data =
        ((notes.data.dropWhile isWsChar).reverse.dropWhile isWsChar).reverse :=
      rfl
    rw [hdata]
    have hhead : ∀ c,
        ((notes.data.dropWhile isWsChar).reverse.dropWhile
          isWsChar).reverse.head? = some c → isWsChar c = false := by
      intro c hc
      rw [List.head?_reverse] at hc
      have hb : (notes.data.dropWhile isWsChar).reverse.dropWhile
          isWsChar ≠ [] := by
        intro hbnil
        rw [hbnil] at hc
        simp at hc
      rw [getLast?_of_suffix (List.dropWhile_suffix isWsChar) hb,
        List.getLast?_reverse] at hc
      exact head?_dropWhile_false isWsChar notes.data c hc
    have hlast : ∀ c,
        ((notes.data.dropWhile isWsChar).reverse.dropWhile
          isWsChar).reverse.getLast? = some c → isWsChar c = false := by
      intro c hc
      rw [List.getLast?_reverse] at hc
      exact head?_dropWhile_false isWsChar
        (notes.data.dropWhile isWsChar).reverse c hc
    cases hh : ((notes.data.dropWhile isWsChar).reverse.dropWhile
        isWsChar).reverse.head? with
    | none =>
        have : ((notes.data.dropWhile isWsChar).reverse.dropWhile
            isWsChar).reverse = [] := List.head?_eq_none_iff.mp hh
        simp [edgeWsFree, this]
    | some c =>
        cases hl : ((notes.data.dropWhile isWsChar).reverse.dropWhile
            isWsChar).reverse.getLast? with
        | none =>
            have : ((notes.data.dropWhile isWsChar).reverse.dropWhile
                isWsChar).reverse = [] := List.getLast?_eq_none_iff.mp hl
            rw [this] at hh
            simp at hh
        | some c2 =>
            simp [edgeWsFree, hh, hl, hhead c hh, hlast c2 hl]

/-- Witness for C8 at concrete inputs: whitespace-padded notes are sent
trimmed, and all-whitespace notes are not sent. -/
theorem c8_trimmed_submit_witness :
    handleSubmit "  some notes " false = some (jsTrim "  some notes ") ∧
    handleSubmit "   " false = none := by
  constructor
  · have h := (c8_trimmed_submit "  some notes " false).1
    rw [h]
    norm_num
    decide
  · have h := (c8_trimmed_submit "   " false).1
    rw [h]
    simp
    decide

/-! ## Claim C9 -/

/-- Scanning with `scanFor p` succeeds exactly when `p` holds of some suffix. -/
theorem scanFor_eq_true {p : List Char → Bool} {l : List Char} :
    scanFor p l = true ↔ ∃ s, s <:+ l ∧ p s = true := by
  induction l with
  | nil =>
      simp only [scanFor, List.suffix_nil]
      constructor
      · intro h
        exact ⟨[], rfl, h⟩
      · rintro ⟨s, rfl, h⟩
        exact h
  | cons c t ih =>
      simp only [scanFor, Bool.or_eq_true, ih]
      constructor
      · rintro (h | ⟨s, hs, hp⟩)
        · exact ⟨c :: t, List.suffix_refl _, h⟩
        · exact ⟨s, hs.trans (List.suffix_cons c t), hp⟩
      · rintro ⟨s, hs, hp⟩
        rcases List.suffix_cons_iff.mp hs with rfl | hs2
        · exact Or.inl hp
        · exact Or.inr ⟨s, hs2, hp⟩

/-- Matching with `matchPatDigit pat` succeeds exactly when the input is the pattern
followed by a digit. -/
theorem matchPatDigit_eq_true {pat cs : List Char} :
    matchPatDigit pat cs = true ↔
      ∃ d post, cs = pat ++ d :: post ∧ d.isDigit = true := by
  induction pat generalizing cs with
  | nil =>
      cases cs with
      | nil => simp [matchPatDigit]
      | cons c rest =>
          simp only [matchPatDigit, List.nil_append]
          constructor
          · intro h
            exact ⟨c, rest, rfl, h⟩
          · rintro ⟨d, post, heq, hd⟩
            cases heq
            exact hd
  | cons p ps ih =>
      cases cs with
      | nil => simp [matchPatDigit]
      | cons c rest =>
          simp only [matchPatDigit, Bool.and_eq_true, beq_iff_eq, ih,
            List.cons_append, List.cons.injEq]
          constructor
          · rintro ⟨rfl, d, post, rfl, hd⟩
            exact ⟨d, post, ⟨rfl, rfl⟩, hd⟩
          · rintro ⟨d, post, ⟨rfl, rfl⟩, hd⟩
            exact ⟨rfl, d, post, rfl, hd⟩

/-- Scanning for `matchPatDigit pat` finds a pattern-then-digit
occurrence anywhere in the list. -/
theorem scanFor_matchPatDigit {pat l : List Char} :
    scanFor (matchPatDigit pat) l = true ↔
      ∃ pre d post, l = pre ++ pat ++ d :: post ∧ d.isDigit = true := by
  rw [scanFor_eq_true]
  constructor
  · rintro ⟨s, ⟨pre, rfl⟩, hm⟩
    obtain ⟨d, post, rfl, hd⟩ := matchPatDigit_eq_true.mp hm
    exact ⟨pre, d, post, by rw [List.append_assoc], hd⟩
  · rintro ⟨pre, d, post, rfl, hd⟩
    exact ⟨pat ++ d :: post, ⟨pre, by rw [List.append_assoc]⟩,
      matchPatDigit_eq_true.mpr ⟨d, post, rfl, hd⟩⟩

/-- Scanning for a prefix test is the infix relation. -/
theorem scanFor_isPrefixOf {pat l : List Char} :
    scanFor (List.isPrefixOf pat) l = true ↔ pat <:+: l := by
  rw [scanFor_eq_true, List.infix_iff_prefix_suffix]
  constructor
  · rintro ⟨s, hs, hp⟩
    exact ⟨s, List.isPrefixOf_iff_prefix.mp hp, hs⟩
  · rintro ⟨t, hp, hs⟩
    exact ⟨t, hs, List.isPrefixOf_iff_prefix.mpr hp⟩

/-- The claim's description of a technical message, over the lowercased
message text: the fixed failure template followed by a digit anywhere,
`status` plus digit at the start, or one of the four transport words
contained anywhere. -/
def SpecTechnical (raw : String) : Prop :=
  (∃ pre d post, lowerChars raw =
      pre ++ ("request failed with status ").data ++ d :: post ∧
      d.isDigit = true) ∨
  (∃ d post, lowerChars raw = ("status ").data ++ d :: post ∧
      d.isDigit = true) ∨
  ("network").data <:+: lowerChars raw ∨
  ("fetch").data <:+: lowerChars raw ∨
  ("econnrefused").data <:+: lowerChars raw ∨
  ("timeout").data <:+: lowerChars raw

/-- The code's technicality test coincides with the claim's
description. -/
theorem isTechnicalMessage_iff {raw : String} :
    isTechnicalMessage raw = true ↔ SpecTechnical raw := by
  simp only [isTechnicalMessage, SpecTechnical, Bool.or_eq_true,
    scanFor_matchPatDigit, scanFor_isPrefixOf, matchPatDigit_eq_true,
    or_assoc]

/-- Claim C9: `toUserFriendlyMessage` maps every technical message (the
failure template with a status digit, a message starting with `status`
and a digit, or one containing `network`, `fetch`, `econnrefused` or
`timeout`, all case-insensitively) to the fixed friendly string, and
returns every other message verbatim. -/
theorem c9_friendly_messages (raw : String) :
    (toUserFriendlyMessage raw = userFriendlyFallback ∧
      SpecTechnical raw) ∨
    (toUserFriendlyMessage raw = raw ∧ ¬ SpecTechnical raw) := by
  by_cases h : isTechnicalMessage raw = true
  · exact Or.inl ⟨by simp [toUserFriendlyMessage, h],
      isTechnicalMessage_iff.mp h⟩
  · exact Or.inr ⟨by simp [toUserFriendlyMessage, h],
      fun hs => h (isTechnicalMessage_iff.mpr hs)⟩

/-- Witness for C6 at concrete identical inputs. -/
theorem c6_buildPrompt_deterministic_witness :
    (buildPrompt "1.0.0" "water boils" .quizOnly (some 25)).map
        PromptSpec.rendered =
      (buildPrompt "1.0.0" "water boils" .quizOnly (some 25)).map
        PromptSpec.rendered ∧
    buildPrompt "1.0.0" "water boils" .quizOnly (some 25) =
      buildPrompt "1.0.0" "water boils" .quizOnly (some 25) :=
  c6_buildPrompt_deterministic "1.0.0" "1.0.0" "water boils" "water boils"
    .quizOnly .quizOnly (some 25) (some 25) rfl rfl rfl rfl

end StudyOne
